import Mathlib

/-!
Shallow embedding of the discovery-and-polling engine of `src/app.py`
(YouTube Shorts VPH and engagement tracker).

Conventions used throughout:
* Instants are integers counting seconds since the Unix epoch; the ISO 8601
  timestamp strings of the source are modelled by their parsed value, with
  `Option ℤ` where the source parse can raise (`datetime.fromisoformat`).
* Real arithmetic of the metric derivations is modelled over `ℚ`.
* The Python dict `shorts_data` is modelled as an association list with the
  dict's insertion order; subscript access that can raise `KeyError` is
  modelled with `Except String`.
* External collaborators (the `isodate` duration parse and the YouTube
  counters fetch) are parameters: the duration parse returns `none` exactly
  when the library call raises, a counters fetch returns `.error` exactly
  when `HttpError` is raised.
-/

namespace App

/-- Sample row appended per capture (src/app.py lines 178-183 and 236-241):
capture timestamp, viewCount, likeCount, commentCount. -/
structure Sample where
  capturedAt : ℤ
  viewCount : ℕ
  likeCount : ℕ
  commentCount : ℕ
  deriving Repr, DecidableEq

/-- Statistics object of one item in a counters response. Every field is
optional because the source reads each with `stats.get(field, 0)`
(src/app.py lines 180-182 and 238-240), so the response may omit it. -/
structure Stats where
  viewCount : Option ℕ
  likeCount : Option ℕ
  commentCount : Option ℕ
  deriving Repr, DecidableEq

/-- Row built from one counters-response entry (src/app.py lines 178-183,
236-241): a missing field defaults to 0 via `dict.get(key, 0)`. -/
def mkRow (ts : ℤ) (stats : Stats) : Sample :=
  ⟨ts, stats.viewCount.getD 0, stats.likeCount.getD 0, stats.commentCount.getD 0⟩

/-- The `shorts_data` mapping from video id to its ordered list of sample
rows: a Python dict modelled as an association list in insertion order. -/
abbrev Store := List (String × List Sample)

/-- Dict lookup by key: the series stored for a video id, or `none` when
the id is not a key of `shorts_data`. -/
def findSeries : Store → String → Option (List Sample)
  | [], _ => none
  | (k, rs) :: t, v => if v = k then some rs else findSeries t v

/-- Embedding of `shorts_data[vid].append(row)` (src/app.py lines 184 and
243): an unguarded dict subscript, so an id that is not a key raises
`KeyError`; for a known id the row is appended at the end of its list. -/
def appendSample (store : Store) (vid : String) (row : Sample) : Except String Store :=
  match findSeries store vid with
  | some _ => .ok (store.map (fun p => if p.1 = vid then (p.1, p.2 ++ [row]) else p))
  | none => .error "KeyError"

/-- Embedding of `st.session_state.shorts_data[vid]` (src/app.py line 302):
a dict subscript read, raising `KeyError` on an unknown id. -/
def getSeries (store : Store) (vid : String) : Except String (List Sample) :=
  match findSeries store vid with
  | some rows => .ok rows
  | none => .error "KeyError"

/-- The fixed IST offset the source hard-codes (`timedelta(hours=5,
minutes=30)`, src/app.py lines 50 and 58), in seconds: +330 minutes. -/
def istOffsetSeconds : ℤ := 330 * 60

/-- Calendar-day number (days since epoch, floor) of an instant in the fixed
IST offset: the value of `now_ist.date()` at src/app.py line 51. -/
def localDay (now : ℤ) : ℤ := Int.fdiv (now + istOffsetSeconds) 86400

/-- Embedding of `get_midnight_ist_utc` (src/app.py lines 44-60): midnight of
the IST calendar date that `now` falls on, converted back to UTC seconds. -/
def get_midnight_ist_utc (now : ℤ) : ℤ :=
  localDay now * 86400 - istOffsetSeconds

/-- Embedding of `is_within_today` (src/app.py lines 62-72). The argument
`pub` is the parsed `publishedAt` instant, `none` when
`datetime.fromisoformat` raises (the except branch returns False). The
window start is recomputed from `now` on every call, and the test is
`midnight_utc <= pub < midnight_utc + 24h`. -/
def is_within_today (now : ℤ) (pub : Option ℤ) : Bool :=
  match pub with
  | none => false
  | some p =>
    decide (get_midnight_ist_utc now ≤ p ∧ p < get_midnight_ist_utc now + 24 * 3600)

/-- Embedding of `iso8601_to_seconds` (src/app.py lines 37-42). The external
`isodate.parse_duration` library call is the parameter `parseDur`, returning
`none` exactly when the library raises; the try/except returns 0 in that
case, otherwise the parsed total whole seconds. -/
def iso8601_to_seconds (parseDur : String → Option ℤ) (s : String) : ℤ :=
  match parseDur s with
  | some n => n
  | none => 0

/-- One entry of an uploads playlist page: the video id, its parsed
`publishedAt` (none when unparsable), and its ISO 8601 duration token. -/
structure RawVideo where
  vidId : String
  publishedAt : Option ℤ
  duration : String
  deriving Repr, DecidableEq

/-- One tracked channel: its display title and the entries of its uploads
playlist, in listing order (all pages concatenated). -/
structure Channel where
  title : String
  videos : List RawVideo
  deriving Repr, DecidableEq

/-- Acceptance test applied to each playlist entry during discovery
(src/app.py lines 126-145): inside the IST window, and duration at most
180 seconds. The window test is evaluated first (line 126) and the
duration lookup only happens for window-eligible entries. -/
def acceptVideo (now : ℤ) (parseDur : String → Option ℤ) (v : RawVideo) : Bool :=
  is_within_today now v.publishedAt &&
    decide (iso8601_to_seconds parseDur v.duration ≤ 180)

/-- The accepted Shorts of one channel, in listing order (`channel_shorts`
accumulated at src/app.py lines 115-145). -/
def discoverChannel (now : ℤ) (parseDur : String → Option ℤ) (ch : Channel) :
    List RawVideo :=
  ch.videos.filter (acceptVideo now parseDur)

/-- The source-order concatenation `today_shorts` (src/app.py lines 92-151:
`today_shorts.extend(channel_shorts)` inside the channel loop). -/
def discover (now : ℤ) (parseDur : String → Option ℤ) (chans : List Channel) :
    List RawVideo :=
  chans.foldl (fun acc ch => acc ++ discoverChannel now parseDur ch) []

/-- Batching as done by `for i in range(0, len(vids), 50): batch =
vids[i:i+50]` (src/app.py lines 164-165 and 221-222). -/
def toBatches {α : Type} (n : ℕ) (l : List α) : List (List α) :=
  (List.range ((l.length + n - 1) / n)).map (fun i => (l.drop (i * n)).take n)

/-- A counters fetch for one batch of ids: the `videos().list(part=
"statistics")` call, returning the response items (id paired with its
statistics object) or the `HttpError` message. -/
abbrev FetchFn := List String → Except String (List (String × Stats))

/-- The append loop over the items of one counters response (src/app.py
lines 175-184 and 233-243): each row is built by `mkRow` and appended with
an unguarded dict subscript. On a `KeyError` the loop stops with the
exception and the store reached so far (earlier appends stay). -/
def appendRows (ts : ℤ) : List (String × Stats) → Store → Store × Option String
  | [], store => (store, none)
  | (vid, stats) :: rest, store =>
    match appendSample store vid (mkRow ts stats) with
    | .error e => (store, some e)
    | .ok store1 => appendRows ts rest store1

/-- Outcome of processing the batches of one round: the store after all
processed appends, the fatal message set on an `HttpError` (prefixed with
the log label of the call site), and an uncaught exception if a `KeyError`
escaped the append loop. -/
structure RoundResult where
  store : Store
  fatal : Option String
  exn : Option String
  deriving Repr, DecidableEq

/-- The per-batch fetch-then-append loop shared by the initial stats fetch
(src/app.py lines 164-184) and each polling round (lines 221-243): one
counters fetch per batch of at most 50 ids; an `HttpError` aborts the
remaining batches, keeping the appends of earlier batches. -/
def runBatches (label : String) (fetch : FetchFn) (ts : ℤ) :
    List (List String) → Store → RoundResult
  | [], store => ⟨store, none, none⟩
  | b :: bs, store =>
    match fetch b with
    | .error e => ⟨store, some (label ++ e), none⟩
    | .ok items =>
      match appendRows ts items store with
      | (store1, some ex) => ⟨store1, none, some ex⟩
      | (store1, none) => runBatches label fetch ts bs store1

/-- Log label of a fetch failure in the polling loop (src/app.py line 229). -/
def pollLabel : String := "API Error (polling): "

/-- Log label of a fetch failure in the initial stats fetch (src/app.py
line 172). -/
def initLabel : String := "API Error (initial stats fetch): "

/-- Result of `discover_and_initial_stats` as the caller consumes it
(src/app.py lines 253-263): the `shorts_data` store, the `no_shorts_flag`,
and an uncaught exception if one escaped the function. -/
structure DiscoveryResult where
  shorts_data : Store
  no_shorts_flag : Bool
  exn : Option String
  deriving Repr, DecidableEq

/-- Embedding of `discover_and_initial_stats` (src/app.py lines 75-186),
with discovery fetches assumed to succeed (the `HttpError` returns of the
discovery phase are not modelled; only the initial stats fetch can fail
here). If no Shorts were accepted, the function returns an empty store and
the flag set (line 157). Otherwise every accepted id gets an empty series
(lines 160-161), one timestamp is taken (line 163), and the batched initial
stats fetch appends one row per responded item; an `HttpError` during that
fetch makes the function return empty dicts and the flag set (line 173). -/
def discover_and_initial_stats (now : ℤ) (parseDur : String → Option ℤ)
    (chans : List Channel) (fetch : FetchFn) (ts : ℤ) : DiscoveryResult :=
  let today := discover now parseDur chans
  if today.isEmpty then ⟨[], true, none⟩
  else
    let store0 : Store := today.map (fun v => (v.vidId, []))
    let r := runBatches initLabel fetch ts (toBatches 50 (today.map (fun v => v.vidId))) store0
    match r.exn with
    | some ex => ⟨r.store, false, some ex⟩
    | none =>
      match r.fatal with
      | some _ => ⟨[], true, none⟩
      | none => ⟨r.store, false, none⟩

/-- The session state shared between the script and the polling thread
(src/app.py lines 256-263): the store, `error_message` (initially None) and
`no_shorts_flag`. -/
structure EngineState where
  shorts_data : Store
  error_message : Option String
  no_shorts_flag : Bool
  deriving Repr, DecidableEq

/-- Session state as initialized from the discovery result (src/app.py
lines 256-263). -/
def initState (res : DiscoveryResult) : EngineState :=
  ⟨res.shorts_data, none, res.no_shorts_flag⟩

/-- Python truthiness of an optional string flag, as tested by
`if error_message:` (src/app.py lines 198 and 214): None and the empty
string are falsy. -/
def truthyStr : Option String → Bool
  | none => false
  | some s => !s.isEmpty

/-- One polling round (body of the hourly loop, src/app.py lines 217-243):
take one timestamp, list the tracked ids, process them in batches of 50.
A fetch `HttpError` sets `error_message` and ends the round, keeping the
appends already made; an uncaught `KeyError` is returned as the second
component (the thread would die without setting `error_message`). -/
def pollStep (fetch : FetchFn) (ts : ℤ) (st : EngineState) :
    EngineState × Option String :=
  let r := runBatches pollLabel fetch ts
    (toBatches 50 (st.shorts_data.map Prod.fst)) st.shorts_data
  (⟨r.store,
    match r.fatal with
    | some e => some e
    | none => st.error_message,
    st.no_shorts_flag⟩, r.exn)

/-- The hourly polling loop (src/app.py lines 212-248), truncated to a
finite list of rounds (each bringing its fetch oracle and its capture
timestamp). Each iteration first re-checks `error_message` (line 214) and
returns when it is truthy; a round that raised an uncaught exception kills
the thread with the state reached so far. -/
def pollLoop : List (FetchFn × ℤ) → EngineState → EngineState × Option String
  | [], st => (st, none)
  | (f, t) :: rest, st =>
    if truthyStr st.error_message then (st, none)
    else
      match pollStep f t st with
      | (st1, some ex) => (st1, some ex)
      | (st1, none) =>
        if truthyStr st1.error_message then (st1, none) else pollLoop rest st1

/-- Embedding of `poll_stats_background` (src/app.py lines 188-248). The
argument `g` is the binding of the module-level global `error_message`
declared at line 193: `none` models the name being unbound at module scope
(nothing in src/app.py ever assigns it outside `st.session_state`), in
which case the read at line 198 raises `NameError` and the daemon thread
dies before any round. When the global is bound, the wait loop returns on a
truthy value or on `no_shorts_flag` (lines 198-203), and otherwise (the
`shorts_data` key is always present by line 258) falls through to the
hourly loop. -/
def poll_stats_background (g : Option (Option String)) (rounds : List (FetchFn × ℤ))
    (st : EngineState) : EngineState × Option String :=
  match g with
  | none => (st, some "NameError: name error_message is not defined")
  | some v =>
    if truthyStr v then (st, none)
    else if st.no_shorts_flag then (st, none)
    else pollLoop rounds st

/-- The actual binding of the module-level global `error_message` in
src/app.py: it is never assigned at module scope (only
`st.session_state.error_message` is, lines 229 and 262), so the name is
unbound. -/
def error_message_global : Option (Option String) := none

/-- Hours between publish and the first capture, floored at 1e-6
(src/app.py line 315). -/
def hoursSincePub (published t0 : ℤ) : ℚ :=
  max (((t0 - published : ℤ) : ℚ) / 3600) (1 / 1000000)

/-- Embedding of the VPH column (src/app.py lines 313-318): the first row is
`viewCount[0] / hoursSincePub`, each later row is the raw signed difference
of consecutive view counts (`df["viewCount"].diff().iloc[1:]`). -/
def vph_vals (published : ℤ) : List Sample → List ℚ
  | [] => []
  | r0 :: rest =>
    ((r0.viewCount : ℚ) / hoursSincePub published r0.capturedAt) ::
      List.zipWith (fun cur prev => (cur.viewCount : ℚ) - (prev.viewCount : ℚ))
        rest (r0 :: rest)

/-- Value type of a pandas float64 column entry: a finite value, a signed
infinity, or NaN. -/
inductive PFloat where
  | finite (q : ℚ)
  | posInf
  | negInf
  | nan
  deriving Repr, DecidableEq

/-- Division as pandas performs it on integer columns (numpy true division):
a zero denominator yields NaN for 0/0 and a signed infinity otherwise,
never an exception. -/
def pandasDiv (num den : ℚ) : PFloat :=
  if den = 0 then
    if num = 0 then .nan else if 0 < num then .posInf else .negInf
  else .finite (num / den)

/-- Embedding of the engagement-rate column (src/app.py line 321):
`(likeCount + commentCount) / viewCount` under pandas division. -/
def engagement_rate (s : Sample) : PFloat :=
  pandasDiv ((s.likeCount : ℚ) + (s.commentCount : ℚ)) (s.viewCount : ℚ)

/-- Helper: lookup through the keyed update that appendSample performs. -/
lemma findSeries_update (store : Store) (vid v : String) (row : Sample) :
    findSeries (store.map (fun p => if p.1 = vid then (p.1, p.2 ++ [row]) else p)) v =
      (findSeries store v).map (fun rows => if v = vid then rows ++ [row] else rows) := by
  induction store with
  | nil => rfl
  | cons p t ih =>
    obtain ⟨k, rs⟩ := p
    rw [List.map_cons]
    by_cases hkv : k = vid
    · have hhead : (if (k, rs).1 = vid then ((k, rs).1, (k, rs).2 ++ [row]) else (k, rs)) =
          (k, rs ++ [row]) := by
        simp [hkv]
      rw [hhead]
      by_cases hv : v = k
      · have hvvid : v = vid := hv.trans hkv
        simp [findSeries, hv, hvvid, hkv]
      · simp [findSeries, hv, ih]
    · have hhead : (if (k, rs).1 = vid then ((k, rs).1, (k, rs).2 ++ [row]) else (k, rs)) =
          (k, rs) := by
        simp [hkv]
      rw [hhead]
      by_cases hv : v = k
      · have hvvid : ¬v = vid := fun hc => hkv (hv ▸ hc)
        simp [findSeries, hv, hvvid, hkv]
      · simp [findSeries, hv, ih]

/-- Helper: appendSample succeeds on a tracked id and performs the keyed
update. -/
lemma appendSample_ok (store : Store) (vid : String) (row : Sample) (rows : List Sample)
    (h : findSeries store vid = some rows) :
    appendSample store vid row =
      .ok (store.map (fun p => if p.1 = vid then (p.1, p.2 ++ [row]) else p)) := by
  simp [appendSample, h]

/-- Helper: the append loop over one response only ever extends existing
series, and every row it adds carries the capture timestamp of the round. -/
lemma appendRows_findSeries (ts : ℤ) :
    ∀ (items : List (String × Stats)) (store : Store) (v : String),
      ∃ newRows : List Sample,
        findSeries (appendRows ts items store).1 v =
          (findSeries store v).map (fun rows => rows ++ newRows) ∧
        ∀ r ∈ newRows, r.capturedAt = ts := by
  intro items
  induction items with
  | nil =>
    intro store v
    exact ⟨[], by cases h : findSeries store v <;> simp [appendRows, h], by simp⟩
  | cons it rest ih =>
    intro store v
    obtain ⟨vid, stats⟩ := it
    cases h : findSeries store vid with
    | none =>
      refine ⟨[], ?_, by simp⟩
      have : appendSample store vid (mkRow ts stats) = .error "KeyError" := by
        simp [appendSample, h]
      simp only [appendRows, this]
      cases h2 : findSeries store v <;> simp [h2]
    | some rows0 =>
      have happ := appendSample_ok store vid (mkRow ts stats) rows0 h
      have hstep : appendRows ts ((vid, stats) :: rest) store =
          appendRows ts rest
            (store.map (fun p => if p.1 = vid then (p.1, p.2 ++ [mkRow ts stats]) else p)) := by
        simp only [appendRows, happ]
      obtain ⟨n1, hn1, hts1⟩ :=
        ih (store.map (fun p => if p.1 = vid then (p.1, p.2 ++ [mkRow ts stats]) else p)) v
      rw [findSeries_update store vid v (mkRow ts stats)] at hn1
      by_cases hv : v = vid
      · refine ⟨mkRow ts stats :: n1, ?_, ?_⟩
        · rw [hstep, hn1]
          cases h2 : findSeries store v <;> simp [h2, hv]
        · intro r hr
          rcases List.mem_cons.mp hr with hr | hr
          · rw [hr]; rfl
          · exact hts1 r hr
      · refine ⟨n1, ?_, hts1⟩
        rw [hstep, hn1]
        cases h2 : findSeries store v <;> simp [h2, hv]

/-- Helper: the per-batch loop of a round only ever extends existing series,
and every row it adds carries the capture timestamp of the round. -/
lemma runBatches_findSeries (label : String) (fetch : FetchFn) (ts : ℤ) :
    ∀ (bs : List (List String)) (store : Store) (v : String),
      ∃ newRows : List Sample,
        findSeries (runBatches label fetch ts bs store).store v =
          (findSeries store v).map (fun rows => rows ++ newRows) ∧
        ∀ r ∈ newRows, r.capturedAt = ts := by
  intro bs
  induction bs with
  | nil =>
    intro store v
    exact ⟨[], by cases h : findSeries store v <;> simp [runBatches, h], by simp⟩
  | cons b bs ih =>
    intro store v
    cases hf : fetch b with
    | error e =>
      refine ⟨[], ?_, by simp⟩
      simp only [runBatches, hf]
      cases h : findSeries store v <;> simp [h]
    | ok items =>
      obtain ⟨n1, hn1, hts1⟩ := appendRows_findSeries ts items store v
      rcases har : appendRows ts items store with ⟨store1, ex⟩
      rw [har] at hn1
      cases ex with
      | some ex0 =>
        refine ⟨n1, ?_, hts1⟩
        simp only [runBatches, hf, har]
        exact hn1
      | none =>
        obtain ⟨n2, hn2, hts2⟩ := ih store1 v
        refine ⟨n1 ++ n2, ?_, ?_⟩
        · simp only [runBatches, hf, har]
          rw [hn2, hn1]
          cases h2 : findSeries store v <;> simp [h2, List.append_assoc]
        · intro r hr
          rcases List.mem_append.mp hr with hr | hr
          · exact hts1 r hr
          · exact hts2 r hr

/-- Helper: a round whose first group of batches completes cleanly continues
with the remaining batches from the store those batches produced. -/
lemma runBatches_append_split (label : String) (fetch : FetchFn) (ts : ℤ) :
    ∀ (bs1 bs2 : List (List String)) (store store1 : Store),
      runBatches label fetch ts bs1 store = ⟨store1, none, none⟩ →
      runBatches label fetch ts (bs1 ++ bs2) store = runBatches label fetch ts bs2 store1 := by
  intro bs1
  induction bs1 with
  | nil =>
    intro bs2 store store1 h
    simp only [runBatches] at h
    rw [List.nil_append, (RoundResult.mk.injEq _ _ _ _ _ _).mp h |>.1]
  | cons b bs1 ih =>
    intro bs2 store store1 h
    cases hf : fetch b with
    | error e => simp [runBatches, hf] at h
    | ok items =>
      rcases har : appendRows ts items store with ⟨s1, ex⟩
      cases ex with
      | some ex0 => simp [runBatches, hf, har] at h
      | none =>
        rw [List.cons_append]
        simp only [runBatches, hf, har]
        apply ih
        simpa only [runBatches, hf, har] using h

/-- Helper: the entry of the VPH diff column at a position, expressed through
the surrounding samples. -/
lemma zipWith_diff_getD (rest : List Sample) (r0 : Sample) (i : ℕ) (h : i < rest.length) :
    (List.zipWith (fun cur prev => (cur.viewCount : ℚ) - (prev.viewCount : ℚ))
        rest (r0 :: rest)).getD i 0 =
      ((rest.getD i ⟨0, 0, 0, 0⟩).viewCount : ℚ) -
        (((r0 :: rest).getD i ⟨0, 0, 0, 0⟩).viewCount : ℚ) := by
  induction rest generalizing r0 i with
  | nil => simp at h
  | cons a rest ih =>
    cases i with
    | zero => simp
    | succ j =>
      have hj : j < rest.length := by simpa using h
      simpa using ih a j hj

/-- C5: the time-window membership test accepts a parsed publish instant p
iff windowStart <= p < windowStart + 24h, with the lower bound included and
the upper bound excluded, where windowStart is the IST midnight computed
from the call-time clock. -/
theorem c5_window_iff (now p : ℤ) :
    is_within_today now (some p) = true ↔
      (get_midnight_ist_utc now ≤ p ∧ p < get_midnight_ist_utc now + 24 * 3600) := by
  simp [is_within_today]

/-- C8: get_midnight_ist_utc returns the same instant for any two call times
on the same IST calendar day, and exactly 24 hours (86400 s) more when the
second call time falls on the next IST calendar day. -/
theorem c8_midnight_day_rules :
    (∀ n1 n2 : ℤ, localDay n1 = localDay n2 →
      get_midnight_ist_utc n1 = get_midnight_ist_utc n2) ∧
    (∀ n1 n2 : ℤ, localDay n2 = localDay n1 + 1 →
      get_midnight_ist_utc n2 = get_midnight_ist_utc n1 + 86400) := by
  constructor
  · intro n1 n2 h
    simp [get_midnight_ist_utc, h]
  · intro n1 n2 h
    rw [get_midnight_ist_utc, get_midnight_ist_utc, h]
    ring

/-- Witness for C8 at concrete instants: 100 s and 0 s share an IST day;
86400 s is exactly one IST day after 0 s. -/
theorem c8_midnight_day_rules_witness :
    get_midnight_ist_utc 100 = get_midnight_ist_utc 0 ∧
    get_midnight_ist_utc 86400 = get_midnight_ist_utc 0 + 86400 :=
  ⟨c8_midnight_day_rules.1 100 0 (by decide),
   c8_midnight_day_rules.2 0 86400 (by decide)⟩

/-- C7: a malformed duration token makes iso8601_to_seconds return 0, and a
0 duration always passes the `<= 180` short-form test, so a window-eligible
item with an unparsable duration is accepted by the discovery filter. -/
theorem c7_malformed_duration (parseDur : String → Option ℤ) (now : ℤ) (v : RawVideo)
    (h : parseDur v.duration = none)
    (hw : is_within_today now v.publishedAt = true) :
    iso8601_to_seconds parseDur v.duration = 0 ∧ acceptVideo now parseDur v = true := by
  have h0 : iso8601_to_seconds parseDur v.duration = 0 := by
    simp [iso8601_to_seconds, h]
  exact ⟨h0, by simp [acceptVideo, hw, h0]⟩

/-- Witness for C7: a parser that only understands PT45S fails on the token
banana; the item still passes the duration filter and is accepted. -/
theorem c7_malformed_duration_witness :
    iso8601_to_seconds (fun s => if s = "PT45S" then some 45 else none) "banana" = 0 ∧
    acceptVideo 0 (fun s => if s = "PT45S" then some 45 else none)
      ⟨"v1", some 0, "banana"⟩ = true :=
  c7_malformed_duration (fun s => if s = "PT45S" then some 45 else none) 0
    ⟨"v1", some 0, "banana"⟩ (by decide) (by decide)

/-- C6: for a sample with viewCount 0 the engagement rate is a non-finite
pandas value (NaN or infinity), never equal to any finite rate and never an
exception; for positive viewCount it is exactly (likes + comments) / views. -/
theorem c6_engagement_rate_division (s : Sample) :
    (s.viewCount = 0 → ∀ q : ℚ, engagement_rate s ≠ PFloat.finite q) ∧
    (0 < s.viewCount → engagement_rate s =
      PFloat.finite (((s.likeCount : ℚ) + (s.commentCount : ℚ)) / (s.viewCount : ℚ))) := by
  constructor
  · intro h q
    simp only [engagement_rate, pandasDiv, h, Nat.cast_zero]
    repeat' split
    all_goals simp_all
  · intro h
    have hne : (s.viewCount : ℚ) ≠ 0 := by
      exact_mod_cast Nat.pos_iff_ne_zero.mp h
    simp [engagement_rate, pandasDiv, hne]

/-- Witness for C6: a sample with 0 views and 3 likes, 4 comments yields a
non-finite rate; a sample with 10 views yields exactly 7/10. -/
theorem c6_engagement_rate_division_witness :
    engagement_rate ⟨0, 0, 3, 4⟩ ≠ PFloat.finite 7 ∧
    engagement_rate ⟨0, 10, 3, 4⟩ =
      PFloat.finite ((((3 : ℕ) : ℚ) + ((4 : ℕ) : ℚ)) / ((10 : ℕ) : ℚ)) :=
  ⟨(c6_engagement_rate_division ⟨0, 0, 3, 4⟩).1 rfl 7,
   (c6_engagement_rate_division ⟨0, 10, 3, 4⟩).2 (by decide)⟩

/-- C1: on a non-empty series the VPH column has one entry per sample; the
entry at index 0 is viewCount[0] divided by max(hours from publish to the
first capture, 1e-6); every later entry is the raw signed difference
viewCount[i] - viewCount[i-1], never clamped at zero. -/
theorem c1_velocity (published : ℤ) (r0 : Sample) (rest : List Sample) :
    (vph_vals published (r0 :: rest)).length = (r0 :: rest).length ∧
    (vph_vals published (r0 :: rest)).getD 0 0 =
      (r0.viewCount : ℚ) /
        max (((r0.capturedAt - published : ℤ) : ℚ) / 3600) (1 / 1000000) ∧
    ∀ i : ℕ, i + 1 < (r0 :: rest).length →
      (vph_vals published (r0 :: rest)).getD (i + 1) 0 =
        (((r0 :: rest).getD (i + 1) ⟨0, 0, 0, 0⟩).viewCount : ℚ) -
          (((r0 :: rest).getD i ⟨0, 0, 0, 0⟩).viewCount : ℚ) := by
  refine ⟨?_, rfl, ?_⟩
  · simp [vph_vals, List.length_zipWith]
  · intro i hi
    have hi' : i < rest.length := by simpa using hi
    simpa [vph_vals] using zipWith_diff_getD rest r0 i hi'

/-- Witness for C1 with a decreasing counter: views drop from 100 to 90 and
the index-1 velocity is the raw difference of the stored view counts. -/
theorem c1_velocity_witness :
    (vph_vals 0 [⟨3600, 100, 0, 0⟩, ⟨7200, 90, 0, 0⟩]).getD 1 0 =
      ((([⟨3600, 100, 0, 0⟩, ⟨7200, 90, 0, 0⟩] : List Sample).getD 1
          ⟨0, 0, 0, 0⟩).viewCount : ℚ) -
        ((([⟨3600, 100, 0, 0⟩, ⟨7200, 90, 0, 0⟩] : List Sample).getD 0
          ⟨0, 0, 0, 0⟩).viewCount : ℚ) :=
  (c1_velocity 0 ⟨3600, 100, 0, 0⟩ [⟨7200, 90, 0, 0⟩]).2.2 0 (by decide)

/-- C2 counterexample: appending a sample for an id not present in the store
does raise — on the empty store the unguarded dict subscript is a KeyError,
not a silent drop. -/
theorem c2_unknown_append_counterexample :
    appendSample [] "v" ⟨0, 1, 2, 3⟩ = Except.error "KeyError" := rfl

/-- C2 (amended): appending a sample for an item identifier not present in
the store raises a KeyError instead of being silently dropped, and reading
the series of an unknown identifier likewise raises a KeyError rather than
yielding an empty-but-present series. -/
theorem c2_unknown_id_keyerror (store : Store) (vid : String) (row : Sample)
    (h : findSeries store vid = none) :
    appendSample store vid row = Except.error "KeyError" ∧
    getSeries store vid = Except.error "KeyError" :=
  ⟨by simp [appendSample, h], by simp [getSeries, h]⟩

/-- Witness for the amended C2 on a store tracking only the id a. -/
theorem c2_unknown_id_keyerror_witness :
    appendSample [("a", [])] "v" ⟨0, 1, 2, 3⟩ = Except.error "KeyError" ∧
    getSeries [("a", [])] "v" = Except.error "KeyError" :=
  c2_unknown_id_keyerror [("a", [])] "v" ⟨0, 1, 2, 3⟩ (by decide)

/-- C9: a counters-response item for a tracked id is appended (not skipped,
no exception) as the row built by mkRow, and mkRow records 0 for each of
viewCount, likeCount, commentCount that the response omits. Both the
initial fetch and every polling round run this same append loop. -/
theorem c9_missing_fields_default_zero (ts : ℤ) (store : Store) (vid : String)
    (stats : Stats) (rows : List Sample) (h : findSeries store vid = some rows) :
    ∃ store1,
      appendRows ts [(vid, stats)] store = (store1, none) ∧
      findSeries store1 vid = some (rows ++ [mkRow ts stats]) ∧
      (stats.viewCount = none → (mkRow ts stats).viewCount = 0) ∧
      (stats.likeCount = none → (mkRow ts stats).likeCount = 0) ∧
      (stats.commentCount = none → (mkRow ts stats).commentCount = 0) := by
  refine ⟨store.map (fun p => if p.1 = vid then (p.1, p.2 ++ [mkRow ts stats]) else p),
    ?_, ?_, ?_, ?_, ?_⟩
  · simp only [appendRows, appendSample_ok store vid (mkRow ts stats) rows h]
  · rw [findSeries_update, h]
    simp
  · intro hm; simp [mkRow, hm]
  · intro hm; simp [mkRow, hm]
  · intro hm; simp [mkRow, hm]

/-- Witness for C9: a response with all three counter fields missing appends
the row (ts, 0, 0, 0) for the tracked id a. -/
theorem c9_missing_fields_default_zero_witness :
    ∃ store1,
      appendRows 3 [("a", ⟨none, none, none⟩)] [("a", [])] = (store1, none) ∧
      findSeries store1 "a" = some ([] ++ [mkRow 3 ⟨none, none, none⟩]) ∧
      ((⟨none, none, none⟩ : Stats).viewCount = none →
        (mkRow 3 ⟨none, none, none⟩).viewCount = 0) ∧
      ((⟨none, none, none⟩ : Stats).likeCount = none →
        (mkRow 3 ⟨none, none, none⟩).likeCount = 0) ∧
      ((⟨none, none, none⟩ : Stats).commentCount = none →
        (mkRow 3 ⟨none, none, none⟩).commentCount = 0) :=
  c9_missing_fields_default_zero 3 [("a", [])] "a" ⟨none, none, none⟩ [] (by decide)

/-- C10: across all batches and items of one round (initial fetch or polling
round alike), the series of any tracked id only grows at its end, and every
row added during the round carries the single capture timestamp taken before
batching began. -/
theorem c10_uniform_capture (label : String) (fetch : FetchFn) (ts : ℤ)
    (bs : List (List String)) (store : Store) (vid : String)
    (rows rows2 : List Sample)
    (h1 : findSeries store vid = some rows)
    (h2 : findSeries (runBatches label fetch ts bs store).store vid = some rows2) :
    ∃ newRows, rows2 = rows ++ newRows ∧ ∀ r ∈ newRows, r.capturedAt = ts := by
  obtain ⟨n, hn, hts⟩ := runBatches_findSeries label fetch ts bs store vid
  rw [h1, h2] at hn
  simp at hn
  exact ⟨n, hn, hts⟩

/-- Witness for C10: one round with capture timestamp 7 appends exactly rows
stamped 7 to the series of the id a. -/
theorem c10_uniform_capture_witness :
    ∃ newRows, ([⟨7, 5, 0, 0⟩] : List Sample) = [] ++ newRows ∧
      ∀ r ∈ newRows, r.capturedAt = 7 :=
  c10_uniform_capture pollLabel (fun _ => .ok [("a", ⟨some 5, none, none⟩)]) 7
    [["a"]] [("a", [])] "a" [] [⟨7, 5, 0, 0⟩] (by decide) (by decide)

/-- C3: if the counters fetch of one batch of a polling round fails after the
earlier batches completed cleanly, the round stops there: error_message is
set to the polling fatal message, the store keeps exactly the appends of the
earlier batches (no rollback), the remaining batches are never fetched, and
the hourly loop performs no further round once error_message is truthy. -/
theorem c3_batch_failure_fatal (fetch : FetchFn) (ts : ℤ) (st : EngineState)
    (bs1 : List (List String)) (b : List String) (bs2 : List (List String))
    (store1 : Store) (e : String)
    (hb : toBatches 50 (st.shorts_data.map Prod.fst) = bs1 ++ b :: bs2)
    (h1 : runBatches pollLabel fetch ts bs1 st.shorts_data = ⟨store1, none, none⟩)
    (hf : fetch b = .error e) :
    pollStep fetch ts st =
      (⟨store1, some (pollLabel ++ e), st.no_shorts_flag⟩, none) ∧
    ∀ (rounds : List (FetchFn × ℤ)) (st2 : EngineState),
      truthyStr st2.error_message = true → pollLoop rounds st2 = (st2, none) := by
  constructor
  · have hrun : runBatches pollLabel fetch ts
        (toBatches 50 (st.shorts_data.map Prod.fst)) st.shorts_data =
        ⟨store1, some (pollLabel ++ e), none⟩ := by
      rw [hb, runBatches_append_split pollLabel fetch ts bs1 (b :: bs2) _ _ h1]
      simp [runBatches, hf]
    simp [pollStep, hrun]
  · intro rounds st2 h2
    cases rounds with
    | nil => rfl
    | cons r rest =>
      obtain ⟨f, t⟩ := r
      simp [pollLoop, h2]

/-- Witness for C3: a single-batch round whose only fetch fails leaves the
store untouched and sets the polling fatal message. -/
theorem c3_batch_failure_fatal_witness :
    pollStep (fun _ => .error "boom") 7 ⟨[("a", [])], none, false⟩ =
      (⟨[("a", [])], some (pollLabel ++ "boom"), false⟩, none) :=
  (c3_batch_failure_fatal (fun _ => .error "boom") 7 ⟨[("a", [])], none, false⟩
    [] ["a"] [] [("a", [])] "boom" (by decide) rfl rfl).1

/-- Helper: a left fold that appends only empty lists returns its
accumulator. -/
lemma foldl_append_of_all_nil (d : Channel → List RawVideo) :
    ∀ (l : List Channel) (acc : List RawVideo), (∀ x ∈ l, d x = []) →
      l.foldl (fun a x => a ++ d x) acc = acc := by
  intro l
  induction l with
  | nil => intro acc _; rfl
  | cons c cs ih =>
    intro acc h
    have hc : d c = [] := h c (by simp)
    rw [List.foldl_cons, hc, List.append_nil]
    exact ih acc (fun x hx => h x (by simp [hx]))

/-- Helper: discovery accepts nothing when every channel contributes
nothing. -/
lemma discover_nil (now : ℤ) (parseDur : String → Option ℤ) (chans : List Channel)
    (h : ∀ ch ∈ chans, discoverChannel now parseDur ch = []) :
    discover now parseDur chans = [] :=
  foldl_append_of_all_nil (discoverChannel now parseDur) chans [] h

/-- Helper: with no_shorts_flag set, the background poller leaves the session
state untouched, whatever the module-global binding and however many rounds
could have run. -/
lemma poll_background_flagged (st : EngineState) (hflag : st.no_shorts_flag = true)
    (g : Option (Option String)) (rounds : List (FetchFn × ℤ)) :
    (poll_stats_background g rounds st).1 = st := by
  cases g with
  | none => rfl
  | some v =>
    by_cases hv : truthyStr v = true
    · simp [poll_stats_background, hv]
    · simp [poll_stats_background, hv, hflag]

/-- C4: when every channel yields zero accepted items, the discovery pass
returns no_shorts_flag = true with an empty store, and the background
poller never starts a sampling round: the session state built from this
result is returned unchanged for every module-global binding and every
possible sequence of rounds. -/
theorem c4_no_items_terminal (now : ℤ) (parseDur : String → Option ℤ)
    (chans : List Channel) (fetch : FetchFn) (ts : ℤ)
    (h : ∀ ch ∈ chans, discoverChannel now parseDur ch = []) :
    (discover_and_initial_stats now parseDur chans fetch ts).no_shorts_flag = true ∧
    (discover_and_initial_stats now parseDur chans fetch ts).shorts_data = [] ∧
    ∀ (g : Option (Option String)) (rounds : List (FetchFn × ℤ)),
      (poll_stats_background g rounds
        (initState (discover_and_initial_stats now parseDur chans fetch ts))).1 =
      initState (discover_and_initial_stats now parseDur chans fetch ts) := by
  have hd : discover now parseDur chans = [] := discover_nil now parseDur chans h
  have hres : discover_and_initial_stats now parseDur chans fetch ts = ⟨[], true, none⟩ := by
    simp [discover_and_initial_stats, hd]
  refine ⟨by rw [hres], by rw [hres], ?_⟩
  intro g rounds
  exact poll_background_flagged _ (by rw [hres]; rfl) g rounds

/-- Witness for C4: one channel with an empty uploads listing. -/
theorem c4_no_items_terminal_witness :
    (discover_and_initial_stats 0 (fun _ => none) [⟨"ch1", []⟩]
      (fun _ => .ok []) 0).no_shorts_flag = true :=
  (c4_no_items_terminal 0 (fun _ => none) [⟨"ch1", []⟩] (fun _ => .ok []) 0
    (by intro ch hch; simp only [List.mem_singleton] at hch; subst hch; rfl)).1

end App
